import Mathlib

/-!
Results-Cal-System: a shallow embedding of `server.js`.

This file embeds the two logic-bearing parts of the repository in Lean 4:

* the tabular OCR-text parser `parseResultText` (server.js, lines 108-164),
  modelled over `List Char` with JavaScript string semantics made explicit
  (trim, `split(/\s{2,}/)`, `replace(/\|/g,'')`, `toUpperCase`,
  `parseInt(c) || 2`, and the truthiness test `!gradePoints[grade]`);
* the GPA aggregator of the `/api/calculate-final` endpoint
  (server.js, lines 207-264), modelled over rational numbers with
  `parseFloat(x.toFixed(2))` embedded as round-half-up at 2 decimals.

Definitions follow the JavaScript source; `…Claimed` / `…Spec` definitions
instead follow the natural-language specification's words, for comparison.
-/

namespace ResultsCal

/-- JavaScript whitespace (`\s`) restricted to the ASCII range: space, tab,
line feed, vertical tab, form feed, carriage return. -/
def isWs (c : Char) : Bool :=
  c == ' ' || c == '\t' || c == '\n' || c == '\x0b' || c == '\x0c' || c == '\r'

/-- Model of `String.prototype.trim`: drop whitespace from both ends. -/
def jsTrim (l : List Char) : List Char :=
  ((l.dropWhile isWs).reverse.dropWhile isWs).reverse

/-- Model of `String.prototype.toUpperCase` (ASCII range). -/
def jsUpper (l : List Char) : List Char :=
  l.map Char.toUpper

/-- Model of `text.split(sep)` for a single-character separator: always returns at
least one (possibly empty) piece. -/
def splitOnChar (sep : Char) : List Char → List (List Char)
  | [] => [[]]
  | c :: rest =>
    if c == sep then [] :: splitOnChar sep rest
    else
      match splitOnChar sep rest with
      | [] => [[c]]
      | piece :: pieces => (c :: piece) :: pieces

/-- Worker for `line.split(/\s{2,}/)`: `acc` is the token built so far and
`ws` buffers a pending whitespace run.  A run of length ≥ 2 is a separator
(greedy, as for the regex); a lone whitespace character stays inside the
token. -/
def splitColsAux : List Char → List Char → List Char → List (List Char)
  | [], acc, ws => if 2 ≤ ws.length then [acc, []] else [acc ++ ws]
  | c :: rest, acc, ws =>
    if isWs c then splitColsAux rest acc (ws ++ [c])
    else if 2 ≤ ws.length then acc :: splitColsAux rest [c] []
    else splitColsAux rest (acc ++ ws ++ [c]) []

/-- Model of `line.split(/\s{2,}/)`: split on runs of at least two whitespace
characters. -/
def splitCols (l : List Char) : List (List Char) :=
  splitColsAux l [] []

/-- Model of `line.replace(/\|/g, '').trim()` — the per-line cleanup. -/
def cleanLine (l : List Char) : List Char :=
  jsTrim (l.filter (fun c => c != '|'))

/-- Model of `line && !line.startsWith('-')` — which cleaned lines are kept. -/
def keepLine : List Char → Bool
  | [] => false
  | c :: _ => c != '-'

/-- Lines 109-111 of server.js: split the raw text on newlines, strip pipe
characters, trim, and keep only truthy lines not starting with a dash. -/
def cleanLines (text : List Char) : List (List Char) :=
  ((splitOnChar '\n' text).map cleanLine).filter keepLine

/-- Model of `split(/\s{2,}/).filter(col => col.trim() !== '')` — the
columns of one line. -/
def colsOf (l : List Char) : List (List Char) :=
  (splitCols l).filter (fun c => !(jsTrim c).isEmpty)

/-- The fixed grade-point table (server.js, lines 65-70), as a partial map:
`gradePoints[g]` is `undefined` (`none`) off the ten keys. -/
def gradePoints : List Char → Option ℚ
  | ['A', '+'] => some 4
  | ['A'] => some (37/10)
  | ['A', '-'] => some (33/10)
  | ['B', '+'] => some 3
  | ['B'] => some (27/10)
  | ['B', '-'] => some (23/10)
  | ['C', '+'] => some 2
  | ['C'] => some (17/10)
  | ['C', '-'] => some (13/10)
  | ['F'] => some 0
  | _ => none

/-- Model of `parseInt` applied to a single character: a decimal digit parses to its
value, anything else (including `undefined`) is `NaN` (`none`). -/
def parseIntChar : Option Char → Option ℕ
  | some c => if c.isDigit then some (c.toNat - 48) else none
  | none => none

/-- Model of `parseInt(courseCode[3]) || 2` (server.js, line 138): the digit value of
the 4th character, except that `0` and `NaN` are falsy and fall back to 2. -/
def creditHoursOf (code : List Char) : ℕ :=
  match parseIntChar (code.get? 3) with
  | some n => if n = 0 then 2 else n
  | none => 2

/-- The synthesized fallback course code `` `CO${year}${semester}${j}${j}` ``
(server.js, line 131). -/
def fallbackCode (year semester : ℤ) (j : ℕ) : List Char :=
  ("CO".data ++ (toString year).data ++ (toString semester).data
    ++ (toString j).data ++ (toString j).data)

/-- One course entry as pushed onto `courses` (server.js, lines 141-146). -/
structure Course where
  code : List Char
  grade : List Char
  creditHours : ℕ
  qualityPoints : ℚ
deriving DecidableEq, Inhabited

/-- One parsed row as pushed onto `results` (server.js, lines 152-159). -/
structure SemesterResult where
  indexNo : List Char
  name : List Char
  semester : ℤ
  year : ℤ
  courses : List Course
  semesterGPA : ℚ
deriving DecidableEq, Inhabited

/-- The two exceptions `parseResultText` can throw. -/
inductive ParseError where
  | insufficientData : ParseError
  | invalidGrade (grade : List Char) (name : List Char) : ParseError
deriving DecidableEq

/-- Model of `columns[j].trim().toUpperCase()` (server.js, line 132). -/
def gradeAt (columns : List (List Char)) (j : ℕ) : List Char :=
  jsUpper (jsTrim ((columns.get? j).getD []))

/-- The inner course loop `for (let j = 2; j < 7; j++)` (server.js, lines
130-150), over the list of column indices still to process.  The guard
mirrors `if (!gradePoints[grade]) throw`: a missing key **or** a zero value
(both falsy in JavaScript) raises `invalidGrade`. -/
def buildCourses (headers columns : List (List Char)) (semester year : ℤ)
    (name : List Char) : List ℕ → Except ParseError (List Course)
  | [] => .ok []
  | j :: js =>
    let courseCode := (headers.get? j).getD (fallbackCode year semester j)
    let grade := gradeAt columns j
    match gradePoints grade with
    | none => .error (.invalidGrade grade name)
    | some v =>
      if v = 0 then .error (.invalidGrade grade name)
      else
        match buildCourses headers columns semester year name js with
        | .error e => .error e
        | .ok cs =>
          let ch := creditHoursOf courseCode
          .ok (⟨courseCode, grade, ch, v * ch⟩ :: cs)

/-- The course-column indices `j = 2 .. 6`. -/
def courseIdxs : List ℕ := [2, 3, 4, 5, 6]

/-- Processing of one data line (server.js, lines 121-160): a line with at
least 7 columns becomes a `SemesterResult` (or throws on a falsy grade);
a shorter line is silently skipped (`ok none`). -/
def processRow (headers : List (List Char)) (semester year : ℤ)
    (line : List Char) : Except ParseError (Option SemesterResult) :=
  let columns := colsOf line
  if 7 ≤ columns.length then
    let indexNo := jsTrim (columns.getD 0 [])
    let name := jsTrim (columns.getD 1 [])
    match buildCourses headers columns semester year name courseIdxs with
    | .error e => .error e
    | .ok courses =>
      let totalQualityPoints := (courses.map (·.qualityPoints)).sum
      let totalCreditHours := (courses.map (·.creditHours)).sum
      .ok (some ⟨indexNo, name, semester, year, courses,
        totalQualityPoints / (totalCreditHours : ℚ)⟩)
  else
    .ok none

/-- The row loop `for (let i = 1; i < lines.length; i++)` (server.js, lines
120-161), collecting results in row order and aborting on the first thrown
error. -/
def processRows (headers : List (List Char)) (semester year : ℤ) :
    List (List Char) → Except ParseError (List SemesterResult)
  | [] => .ok []
  | line :: rest =>
    match processRow headers semester year line with
    | .error e => .error e
    | .ok none => processRows headers semester year rest
    | .ok (some r) =>
      match processRows headers semester year rest with
      | .error e => .error e
      | .ok rs => .ok (r :: rs)

/-- Model of `parseResultText(text, semester, year)` (server.js, lines
108-164). -/
def parseResultText (text : List Char) (semester year : ℤ) :
    Except ParseError (List SemesterResult) :=
  let lines := cleanLines text
  if lines.length < 2 then .error .insufficientData
  else
    let headers := colsOf (lines.getD 0 [])
    processRows headers semester year lines.tail

/-! The GPA aggregator (`/api/calculate-final`, server.js lines 207-264). -/

/-- Model of `parseFloat(x.toFixed(2))`: round to 2 decimal places, half up (all
GPA values in this system are non-negative). -/
def round2 (q : ℚ) : ℚ :=
  ((⌊q * 100 + 1/2⌋ : ℤ) : ℚ) / 100

/-- One stored `Result` document (the mongoose schema, server.js lines
24-39): a parsed semester row plus the aggregate fields the calculator
writes back.  `yearGPA` is the per-year map object; fields are `none`
until a `calculate-final` run sets them. -/
structure StoredResult where
  indexNo : String
  name : String
  semester : ℤ
  year : ℤ
  courses : List Course
  semesterGPA : ℚ
  yearGPA : Option (List (ℤ × ℚ))
  finalGPA : Option ℚ
  finalClass : Option String
deriving DecidableEq, Inhabited

/-- The `(year, semesterGPA)` pairs of one student's records, in store
order: everything the per-student aggregation reads. -/
def pairsOf (rs : List StoredResult) (s : String) : List (ℤ × ℚ) :=
  (rs.filter (fun r => r.indexNo == s)).map (fun r => (r.year, r.semesterGPA))

/-- Model of `resultsByYear[year]`, projected to the semester GPAs. -/
def yearGroup (l : List (ℤ × ℚ)) (y : ℤ) : List ℚ :=
  (l.filter (fun p => p.1 == y)).map Prod.snd

/-- Model of `results.reduce((s, r) => s + r.semesterGPA, 0) / results.length`
(server.js, line 241): the unrounded mean of one year's semester GPAs. -/
def yearMean (l : List (ℤ × ℚ)) (y : ℤ) : ℚ :=
  (yearGroup l y).sum / ((yearGroup l y).length : ℚ)

/-- The distinct years of a student's records (the keys of
`resultsByYear`). -/
def studentYears (l : List (ℤ × ℚ)) : List ℤ :=
  (l.map Prod.fst).dedup

/-- The year loop (server.js, lines 240-245): fold over the distinct years
accumulating the `yearGPAs` map (rounded entries), `totalYearGPA` (the
**unrounded** mean is added), and `yearCount`. -/
def aggFold (l : List (ℤ × ℚ)) : List (ℤ × ℚ) × ℚ × ℕ :=
  (studentYears l).foldl
    (fun acc y =>
      (acc.1 ++ [(y, round2 (yearMean l y))], acc.2.1 + yearMean l y, acc.2.2 + 1))
    ([], 0, 0)

/-- The `yearGPAs` object written onto the student's records. -/
def yearGPAsOf (l : List (ℤ × ℚ)) : List (ℤ × ℚ) :=
  (aggFold l).1

/-- Model of `parseFloat((totalYearGPA / yearCount).toFixed(2))` (server.js,
line 248). -/
def finalGPAOf (l : List (ℤ × ℚ)) : ℚ :=
  round2 ((aggFold l).2.1 / ((aggFold l).2.2 : ℚ))

/-- The classification chain (server.js, lines 249-253), applied to the
rounded final GPA. -/
def classifyCode (g : ℚ) : String :=
  if 37/10 ≤ g then "First Class"
  else if 33/10 ≤ g then "Second Upper Class"
  else if 3 ≤ g then "Second Lower Class"
  else "Just Pass"

/-- Value of `finalClass` as computed for one student. -/
def finalClassOf (l : List (ℤ × ℚ)) : String :=
  classifyCode (finalGPAOf l)

/-- Object-style lookup in the stored `yearGPA` map. -/
def lookupYear (m : List (ℤ × ℚ)) (y : ℤ) : Option ℚ :=
  (m.find? (fun p => p.1 == y)).map Prod.snd

/-- One full `/api/calculate-final` run over the store: every record is
overwritten with the aggregates of its own student (the per-student
`updateMany` fan-out, server.js lines 256-263). -/
def recalcAll (rs : List StoredResult) : List StoredResult :=
  rs.map (fun r =>
    { r with
      yearGPA := some (yearGPAsOf (pairsOf rs r.indexNo))
      finalGPA := some (finalGPAOf (pairsOf rs r.indexNo))
      finalClass := some (finalClassOf (pairsOf rs r.indexNo)) })

/-! Definitions following the specification's words, for comparison with
the code-derived definitions above. -/

/-- Claimed line-discard rule (spec §4.1 step 1): keep a line unless it is
blank or purely separator dashes. -/
def keepLineClaimed (l : List Char) : Bool :=
  !l.isEmpty && !(l.all (fun c => c == '-'))

/-- Line cleanup as the specification words it. -/
def cleanLinesClaimed (text : List Char) : List (List Char) :=
  ((splitOnChar '\n' text).map cleanLine).filter keepLineClaimed

/-- Claimed credit-hours rule (spec §4.1 step 5): the 4th character of the
code parsed as an integer whenever it is a numeric digit, else the
default 2. -/
def creditHoursClaimed (code : List Char) : ℕ :=
  match code.get? 3 with
  | some c => if c.isDigit then c.toNat - 48 else 2
  | none => 2

/-- Amended credit-hours rule: a digit other than 0 gives its value, while
the digit 0 — being falsy in JavaScript — falls back to the default 2, as
do non-digits and missing characters. -/
def creditHoursAmended (code : List Char) : ℕ :=
  match code.get? 3 with
  | some c => if c.isDigit ∧ c ≠ '0' then c.toNat - 48 else 2
  | none => 2

/-- Final GPA as the claim words it: the mean of the already-rounded
per-year values, rounded again. -/
def finalGPAClaimed (l : List (ℤ × ℚ)) : ℚ :=
  round2 ((((studentYears l).map (fun y => round2 (yearMean l y))).sum)
    / ((studentYears l).length : ℚ))

/-- Classification threshold table in the specification's order. -/
def classThresholds : List (ℚ × String) :=
  [(37/10, "First Class"), (33/10, "Second Upper Class"),
   (3, "Second Lower Class")]

/-- Classification as the claim words it: first-match-wins over the ordered
threshold table. -/
def classifySpec (g : ℚ) : String :=
  match classThresholds.find? (fun p => decide (p.1 ≤ g)) with
  | some p => p.2
  | none => "Just Pass"

/-! Concrete inputs used by witnesses and counterexamples. -/

/-- A well-formed sheet whose data row carries the grade `F`. -/
def exFText : List Char :=
  "IDX  NAME  CO101  CO102  CO103  CO104  CO105\n20/001  JANE  F  A  A  A  A".data

/-- A well-formed sheet whose data row carries the out-of-table grade `D`. -/
def exDText : List Char :=
  "IDX  NAME  CO101  CO102  CO103  CO104  CO105\n20/002  JOHN  A  D  A  A  A".data

/-- A well-formed sheet with five valid, nonzero-valued grades. -/
def exOKText : List Char :=
  "IDX  NAME  CO101  CO102  CO103  CO104  CO105\n20/001  JANE  A  B+  C  A-  C+".data

/-- The header columns of `exOKText`. -/
def exOKHeaders : List (List Char) :=
  ["IDX".data, "NAME".data, "CO101".data, "CO102".data, "CO103".data,
   "CO104".data, "CO105".data]

/-- The data columns of `exOKText`. -/
def exOKCols : List (List Char) :=
  ["20/001".data, "JANE".data, "A".data, "B+".data, "C".data, "A-".data,
   "C+".data]

/-- The expected course entries of `exOKText`. -/
def exOKCourses : List Course :=
  [⟨"CO101".data, "A".data, 2, 37/5⟩, ⟨"CO102".data, "B+".data, 2, 6⟩,
   ⟨"CO103".data, "C".data, 2, 17/5⟩, ⟨"CO104".data, "A-".data, 2, 33/5⟩,
   ⟨"CO105".data, "C+".data, 2, 4⟩]

/-- The semester result the parser emits for `exOKText`. -/
def exOKResult : SemesterResult :=
  ⟨"20/001".data, "JANE".data, 1, 1, exOKCourses, 137/50⟩

/-- Two cleaned lines, neither of which is a valid data row. -/
def exShortText : List Char := "AB\nCD".data

/-- A sheet whose second line starts with a dash but carries row data. -/
def exDashText : List Char := "H1\n-A  B".data

/-! Helper lemmas about the parser. -/

/-- Any error thrown inside the course loop is an `invalidGrade`. -/
theorem buildCourses_error {h c : List (List Char)} {s y : ℤ}
    {m : List Char} {js : List ℕ} {e : ParseError}
    (hb : buildCourses h c s y m js = .error e) : ∃ g n, e = .invalidGrade g n := by
  induction js with
  | nil => simp [buildCourses] at hb
  | cons j js ih =>
    simp only [buildCourses] at hb
    split at hb
    next => exact ⟨_, _, (by simpa using hb : _ = e).symm⟩
    next v hg =>
      split at hb
      next => exact ⟨_, _, (by simpa using hb : _ = e).symm⟩
      next hv =>
        split at hb
        next e2 heq =>
          obtain rfl : e2 = e := by simpa using hb
          exact ih heq
        next cs heq => simp at hb

/-- Any error thrown while processing one row is an `invalidGrade`. -/
theorem processRow_error {h : List (List Char)} {s y : ℤ} {l : List Char}
    {e : ParseError} (hp : processRow h s y l = .error e) :
    ∃ g n, e = .invalidGrade g n := by
  simp only [processRow] at hp
  split at hp
  · split at hp
    next e2 heq =>
      obtain rfl : e2 = e := by simpa using hp
      exact buildCourses_error heq
    next cs heq => simp at hp
  · simp at hp

/-- Any error thrown by the row loop is an `invalidGrade`. -/
theorem processRows_error {h : List (List Char)} {s y : ℤ}
    {ls : List (List Char)} {e : ParseError}
    (hp : processRows h s y ls = .error e) : ∃ g n, e = .invalidGrade g n := by
  induction ls with
  | nil => simp [processRows] at hp
  | cons l rest ih =>
    simp only [processRows] at hp
    split at hp
    next e2 heq =>
      obtain rfl : e2 = e := by simpa using hp
      exact processRow_error heq
    next heq => exact ih hp
    next r heq =>
      split at hp
      next e2 heq2 =>
        obtain rfl : e2 = e := by simpa using hp
        exact ih heq2
      next rs heq2 => simp at hp

/-- If some processed column holds a grade that is not in the table, the
course loop throws. -/
theorem buildCourses_error_of_none {h c : List (List Char)} {s y : ℤ}
    {m : List Char} {js : List ℕ} {j : ℕ} (hj : j ∈ js)
    (hg : gradePoints (gradeAt c j) = none) :
    ∃ e, buildCourses h c s y m js = .error e := by
  induction js with
  | nil => cases hj
  | cons j0 js ih =>
    rcases List.mem_cons.mp hj with rfl | hj'
    · exact ⟨.invalidGrade (gradeAt c j) m, by simp [buildCourses, hg]⟩
    · cases hg0 : gradePoints (gradeAt c j0) with
      | none => exact ⟨.invalidGrade (gradeAt c j0) m, by simp [buildCourses, hg0]⟩
      | some v =>
        by_cases hv : v = 0
        · exact ⟨.invalidGrade (gradeAt c j0) m, by simp [buildCourses, hg0, hv]⟩
        · obtain ⟨e, he⟩ := ih hj'
          exact ⟨e, by simp [buildCourses, hg0, hv, he]⟩

/-- A row with at least 7 columns and an out-of-table grade in a course
column throws. -/
theorem processRow_error_of_none {h : List (List Char)} {s y : ℤ}
    {l : List Char} {j : ℕ} (h7 : 7 ≤ (colsOf l).length)
    (hj : j ∈ courseIdxs) (hg : gradePoints (gradeAt (colsOf l) j) = none) :
    ∃ e, processRow h s y l = .error e := by
  obtain ⟨e, he⟩ :=
    @buildCourses_error_of_none h (colsOf l) s y (jsTrim ((colsOf l).getD 1 []))
      courseIdxs j hj hg
  refine ⟨e, ?_⟩
  simp only [processRow, if_pos h7]
  rw [he]

/-- If some line of the batch is a valid data row with an out-of-table
grade, the row loop errors with an `invalidGrade`. -/
theorem processRows_error_of_none (h : List (List Char)) (s y : ℤ)
    (ls : List (List Char))
    (hx : ∃ l ∈ ls, 7 ≤ (colsOf l).length ∧
      ∃ j, j ∈ courseIdxs ∧ gradePoints (gradeAt (colsOf l) j) = none) :
    ∃ g n, processRows h s y ls = .error (.invalidGrade g n) := by
  induction ls with
  | nil => obtain ⟨l, hl, _⟩ := hx; cases hl
  | cons line rest ih =>
    cases hr : processRow h s y line with
    | error e =>
      obtain ⟨g, n, rfl⟩ := processRow_error hr
      exact ⟨g, n, by simp [processRows, hr]⟩
    | ok o =>
      obtain ⟨l, hl, h7, j, hj, hg⟩ := hx
      rcases List.mem_cons.mp hl with rfl | hl'
      · obtain ⟨e, he⟩ := @processRow_error_of_none h s y l j h7 hj hg
        rw [he] at hr; cases hr
      · obtain ⟨g, n, hrec⟩ := ih ⟨l, hl', h7, j, hj, hg⟩
        cases o with
        | none => exact ⟨g, n, by simp [processRows, hr, hrec]⟩
        | some r => exact ⟨g, n, by simp [processRows, hr, hrec]⟩

/-- The row loop never reports insufficient data. -/
theorem processRows_ne_insufficient (h : List (List Char)) (s y : ℤ)
    (ls : List (List Char)) :
    processRows h s y ls ≠ .error .insufficientData := by
  intro hp
  obtain ⟨g, n, hgn⟩ := processRows_error hp
  cases hgn

/-- Rows with fewer than 7 columns are skipped without an error. -/
theorem processRows_skip (h : List (List Char)) (s y : ℤ)
    (ls : List (List Char)) (hs : ∀ l ∈ ls, (colsOf l).length < 7) :
    processRows h s y ls = .ok [] := by
  induction ls with
  | nil => rfl
  | cons line rest ih =>
    have h7 : ¬ 7 ≤ (colsOf line).length := by
      have := hs line (List.mem_cons_self _ _)
      omega
    have hr : processRow h s y line = .ok none := by
      simp [processRow, h7]
    rw [processRows, hr]
    exact ih (fun l hl => hs l (List.mem_cons_of_mem _ hl))

/-- Membership in the course-column index list is the interval `[2, 7)`. -/
theorem mem_courseIdxs {j : ℕ} : j ∈ courseIdxs ↔ 2 ≤ j ∧ j < 7 := by
  simp [courseIdxs]
  omega

/-! Main theorems for the parser claims. -/

/-- C1: the specification says every grade in the fixed table — `F = 0.0`
included — parses to its constant.  The code instead rejects `F`: the
JavaScript guard `!gradePoints[grade]` is truthy for the value `0.0`, so a
well-formed row whose grade is `F` aborts the parse with
`Invalid grade 'F'`, although `F` is a key of the table. -/
theorem gradeF_in_table_but_rejected :
    gradePoints "F".data = some 0 ∧
    parseResultText exFText 1 1 =
      .error (.invalidGrade "F".data "JANE".data) :=
  ⟨rfl, rfl⟩

/-- C2: a valid data row (at least 7 columns) holding an out-of-table grade
token in one of the five course columns makes the whole parse return an
`invalidGrade` error naming a grade and a student name — no semester result
is returned for any row of the batch. -/
theorem parse_aborts_on_invalid_grade (text : List Char) (s y : ℤ)
    (hx : ∃ line ∈ (cleanLines text).tail, 7 ≤ (colsOf line).length ∧
      ∃ j, 2 ≤ j ∧ j < 7 ∧ gradePoints (gradeAt (colsOf line) j) = none) :
    ∃ g n, parseResultText text s y = .error (.invalidGrade g n) := by
  have hx' : ∃ l ∈ (cleanLines text).tail, 7 ≤ (colsOf l).length ∧
      ∃ j, j ∈ courseIdxs ∧ gradePoints (gradeAt (colsOf l) j) = none := by
    obtain ⟨l, hl, h7, j, hj2, hj7, hg⟩ := hx
    exact ⟨l, hl, h7, j, mem_courseIdxs.mpr ⟨hj2, hj7⟩, hg⟩
  have hlen : ¬ (cleanLines text).length < 2 := by
    obtain ⟨l, hl, -⟩ := hx'
    cases hcl : cleanLines text with
    | nil => rw [hcl] at hl; cases hl
    | cons a t =>
      cases t with
      | nil => rw [hcl] at hl; cases hl
      | cons b t2 => simp [hcl]
  obtain ⟨g, n, hrun⟩ :=
    processRows_error_of_none (colsOf ((cleanLines text).getD 0 [])) s y
      (cleanLines text).tail hx'
  refine ⟨g, n, ?_⟩
  simp only [parseResultText, if_neg hlen]
  exact hrun

/-- C2 witness: a sheet whose data row holds the out-of-table grade `D`. -/
theorem parse_aborts_on_invalid_grade_witness :
    ∃ g n, parseResultText exDText 1 1 = .error (.invalidGrade g n) :=
  parse_aborts_on_invalid_grade exDText 1 1
    ⟨"20/002  JOHN  A  D  A  A  A".data, by decide, by decide,
      3, by decide, by decide, by decide⟩

/-- C6: the parse fails with the insufficient-data error exactly when fewer
than 2 cleaned lines remain; and with at least 2 cleaned lines but no data
line of 7 or more columns, it returns the empty result list, not an error. -/
theorem parse_insufficient_iff_and_skip (text : List Char) (s y : ℤ) :
    (parseResultText text s y = .error .insufficientData ↔
      (cleanLines text).length < 2) ∧
    (2 ≤ (cleanLines text).length →
      (∀ line ∈ (cleanLines text).tail, (colsOf line).length < 7) →
      parseResultText text s y = .ok []) := by
  constructor
  · constructor
    · intro hp
      by_contra hlen
      rw [parseResultText] at hp
      rw [if_neg hlen] at hp
      exact processRows_ne_insufficient _ s y _ hp
    · intro hlen
      simp [parseResultText, hlen]
  · intro hlen hshort
    have hlen' : ¬ (cleanLines text).length < 2 := by omega
    have hskip := processRows_skip (colsOf ((cleanLines text).getD 0 [])) s y
      (cleanLines text).tail hshort
    simp only [parseResultText, if_neg hlen']
    exact hskip

/-- C6 witness: two cleaned lines, no valid data row: empty output. -/
theorem parse_insufficient_iff_and_skip_witness :
    parseResultText exShortText 1 1 = .ok [] :=
  (parse_insufficient_iff_and_skip exShortText 1 1).2 (by decide) (by decide)

/-- Unfolding of the keep--discard test for cleaned lines. -/
theorem keepLine_iff (l : List Char) :
    keepLine l = true ↔ l ≠ [] ∧ l.head? ≠ some '-' := by
  cases l with
  | nil => simp [keepLine]
  | cons c t => simp [keepLine]

/-- C7 counterexample: the claim says the only discarded lines are blank
lines and purely-dash separator lines, so the data-bearing line `-A  B`
would be retained; the code discards it, because it merely tests
`startsWith('-')` on the cleaned line. -/
theorem cleanLines_ne_claimed :
    cleanLines exDashText ≠ cleanLinesClaimed exDashText := by decide

/-- C7 amended: cleanup strips pipes and trims each line, and a cleaned
line is retained exactly when it is nonempty and does not start with a
dash — even a data-bearing line is discarded when its first character is a
dash. -/
theorem cleanLines_mem_iff (text l : List Char) :
    l ∈ cleanLines text ↔
      (∃ raw, raw ∈ splitOnChar '\n' text ∧ cleanLine raw = l) ∧
        l ≠ [] ∧ l.head? ≠ some '-' := by
  simp only [cleanLines, List.mem_filter, List.mem_map, keepLine_iff]

/-- C7 amended, witness: the kept line of the dash example. -/
theorem cleanLines_mem_iff_witness :
    "H1".data ∈ cleanLines exDashText :=
  (cleanLines_mem_iff exDashText "H1".data).mpr
    ⟨⟨"H1".data, by decide, by decide⟩, by decide, by decide⟩

/-- The falsy-aware credit-hours computation agrees with its amended
description: digits 1-9 give their value, everything else gives 2. -/
theorem creditHoursOf_eq_amended (code : List Char) :
    creditHoursOf code = creditHoursAmended code := by
  unfold creditHoursOf creditHoursAmended parseIntChar
  cases code.get? 3 with
  | none => rfl
  | some ch =>
    by_cases hd : ch.isDigit
    · simp only [hd, if_true]
      by_cases h0 : ch = '0'
      · subst h0
        simp
      · have hne : ch.toNat ≠ 48 := by
          intro hc
          apply h0
          have h2 := Char.ofNat_toNat ch
          rw [hc] at h2
          exact h2.symm
        have hge : 48 ≤ ch.toNat := by
          simp [Char.isDigit] at hd
          exact hd.1
        have : ¬ ch.toNat - 48 = 0 := by omega
        simp [this, hd, h0]
    · simp [hd]

/-- Elements of the course-index list, by position. -/
theorem courseIdxs_get (k : ℕ) (hk : k < 5) :
    courseIdxs.get? k = some (k + 2) := by
  interval_cases k <;> rfl

/-- Structure of the course list built by a successful course loop: one
course per index, with the header-or-fallback code, the normalized grade,
the falsy-aware credit hours, and quality points equal to the table value
times the credit hours (the table value being nonzero). -/
theorem buildCourses_ok_spec {h c : List (List Char)} {s y : ℤ}
    {m : List Char} {js : List ℕ} {cs : List Course}
    (hb : buildCourses h c s y m js = .ok cs) :
    cs.length = js.length ∧
    ∀ k j cc, js.get? k = some j → cs.get? k = some cc →
      cc.code = (h.get? j).getD (fallbackCode y s j) ∧
      cc.grade = gradeAt c j ∧
      cc.creditHours = creditHoursOf cc.code ∧
      ∃ v, gradePoints cc.grade = some v ∧ v ≠ 0 ∧
        cc.qualityPoints = v * (cc.creditHours : ℚ) := by
  induction js generalizing cs with
  | nil =>
    obtain rfl : cs = [] := by simpa [buildCourses] using hb.symm
    exact ⟨rfl, by intro k j cc hj; cases k <;> simp at hj⟩
  | cons j0 js ih =>
    simp only [buildCourses] at hb
    split at hb
    next => cases hb
    next v hg =>
      split at hb
      next => cases hb
      next hv =>
        split at hb
        next e2 heq => cases hb
        next cs' heq =>
          obtain rfl : (⟨(h.get? j0).getD (fallbackCode y s j0), gradeAt c j0,
              creditHoursOf ((h.get? j0).getD (fallbackCode y s j0)),
              v * (creditHoursOf ((h.get? j0).getD (fallbackCode y s j0)) : ℚ)⟩ :
              Course) :: cs' = cs := by simpa using hb
          obtain ⟨ihl, ihk⟩ := ih heq
          refine ⟨by simpa using ihl, ?_⟩
          intro k j cc hj hc2
          cases k with
          | zero =>
            obtain rfl : j0 = j := by simpa using hj
            obtain rfl := (by simpa using hc2 :
              (⟨(h.get? j0).getD (fallbackCode y s j0), gradeAt c j0,
                creditHoursOf ((h.get? j0).getD (fallbackCode y s j0)),
                v * (creditHoursOf ((h.get? j0).getD (fallbackCode y s j0)) : ℚ)⟩ :
                Course) = cc)
            exact ⟨rfl, rfl, rfl, v, hg, hv, rfl⟩
          | succ k =>
            exact ihk k j cc (by simpa using hj) (by simpa using hc2)

/-- Shape of a successfully processed data row. -/
theorem processRow_ok_spec {h : List (List Char)} {s y : ℤ} {l : List Char}
    {r : SemesterResult} (hp : processRow h s y l = .ok (some r)) :
    r.semester = s ∧ r.year = y ∧
    r.indexNo = jsTrim ((colsOf l).getD 0 []) ∧
    r.name = jsTrim ((colsOf l).getD 1 []) ∧
    buildCourses h (colsOf l) s y r.name courseIdxs = .ok r.courses ∧
    r.semesterGPA = (r.courses.map (·.qualityPoints)).sum /
      (((r.courses.map (·.creditHours)).sum : ℕ) : ℚ) := by
  simp only [processRow] at hp
  split at hp
  · split at hp
    next e2 heq => cases hp
    next cs heq =>
      obtain rfl : (⟨jsTrim ((colsOf l).getD 0 []), jsTrim ((colsOf l).getD 1 []),
          s, y, cs, (cs.map (·.qualityPoints)).sum /
            (((cs.map (·.creditHours)).sum : ℕ) : ℚ)⟩ : SemesterResult) = r := by
        simpa using hp
      exact ⟨rfl, rfl, rfl, rfl, heq, rfl⟩
  · cases hp

/-- Every result emitted by the row loop comes from some processed line. -/
theorem processRows_ok_spec {h : List (List Char)} {s y : ℤ}
    {ls : List (List Char)} {rs : List SemesterResult}
    (hp : processRows h s y ls = .ok rs) :
    ∀ r ∈ rs, ∃ l ∈ ls, processRow h s y l = .ok (some r) := by
  induction ls generalizing rs with
  | nil =>
    obtain rfl : rs = [] := by simpa [processRows] using hp.symm
    intro r hr
    cases hr
  | cons line rest ih =>
    simp only [processRows] at hp
    split at hp
    next e heq => cases hp
    next heq =>
      intro r hr
      obtain ⟨l, hl, hpr⟩ := ih hp r hr
      exact ⟨l, List.mem_cons_of_mem _ hl, hpr⟩
    next r0 heq =>
      split at hp
      next e heq2 => cases hp
      next rs' heq2 =>
        obtain rfl : r0 :: rs' = rs := by simpa using hp
        intro r hr
        rcases List.mem_cons.mp hr with rfl | hr'
        · exact ⟨line, List.mem_cons_self _ _, heq⟩
        · obtain ⟨l, hl, hpr⟩ := ih heq2 r hr'
          exact ⟨l, List.mem_cons_of_mem _ hl, hpr⟩

/-- Successful parses come from the row loop over the cleaned tail lines. -/
theorem parse_ok_elim {text : List Char} {s y : ℤ} {rs : List SemesterResult}
    (hp : parseResultText text s y = .ok rs) :
    processRows (colsOf ((cleanLines text).getD 0 [])) s y
      (cleanLines text).tail = .ok rs := by
  simp only [parseResultText] at hp
  split at hp
  · cases hp
  · exact hp

/-- C4: in every successful parse, each emitted semester result carries
exactly 5 courses, each course's quality points are the table value of its
grade times its credit hours, and the semester GPA is the total quality
points divided by the total credit hours — the credit-hour-weighted mean. -/
theorem parse_semesterGPA_weighted_mean (text : List Char) (s y : ℤ)
    (rs : List SemesterResult) (hp : parseResultText text s y = .ok rs) :
    ∀ r ∈ rs, r.courses.length = 5 ∧
      (∀ cc ∈ r.courses, ∃ v, gradePoints cc.grade = some v ∧
        cc.qualityPoints = v * (cc.creditHours : ℚ)) ∧
      r.semesterGPA = (r.courses.map (·.qualityPoints)).sum /
        (((r.courses.map (·.creditHours)).sum : ℕ) : ℚ) := by
  intro r hr
  obtain ⟨l, hl, hpr⟩ := processRows_ok_spec (parse_ok_elim hp) r hr
  obtain ⟨-, -, -, -, hbc, hgpa⟩ := processRow_ok_spec hpr
  obtain ⟨hlen, hidx⟩ := buildCourses_ok_spec hbc
  refine ⟨by simpa [courseIdxs] using hlen, ?_, hgpa⟩
  intro cc hcc
  obtain ⟨k, hk⟩ := List.mem_iff_get?.mp hcc
  have hk5 : k < 5 := by
    obtain ⟨hkl, -⟩ := List.get?_eq_some.mp hk
    rw [hlen] at hkl
    simpa [courseIdxs] using hkl
  obtain ⟨-, -, -, v, hgp, -, hqp⟩ :=
    hidx k (k + 2) cc (courseIdxs_get k hk5) hk
  exact ⟨v, hgp, hqp⟩

/-- Full evaluation of the parser on the five-valid-grades sheet. -/
theorem parse_exOK : parseResultText exOKText 1 1 = .ok [exOKResult] := by
  have hclean : cleanLines exOKText =
      ["IDX  NAME  CO101  CO102  CO103  CO104  CO105".data,
       "20/001  JANE  A  B+  C  A-  C+".data] := rfl
  have hh : colsOf "IDX  NAME  CO101  CO102  CO103  CO104  CO105".data =
      exOKHeaders := rfl
  have hc : colsOf "20/001  JANE  A  B+  C  A-  C+".data = exOKCols := rfl
  have hrow : processRow exOKHeaders 1 1 "20/001  JANE  A  B+  C  A-  C+".data =
      .ok (some exOKResult) := by
    rw [processRow, hc]
    norm_num +decide [buildCourses, courseIdxs, gradePoints, creditHoursOf,
      parseIntChar, gradeAt, exOKHeaders, exOKCols, exOKResult, exOKCourses,
      jsUpper, jsTrim, isWs,
      show 'A'.toUpper = 'A' from rfl, show 'B'.toUpper = 'B' from rfl,
      show 'C'.toUpper = 'C' from rfl, show '+'.toUpper = '+' from rfl,
      show '-'.toUpper = '-' from rfl]
  simp only [parseResultText, hclean, List.length_cons, List.length_nil,
    List.getD, List.get?_cons_zero, Option.getD_some, List.tail_cons, hh]
  norm_num [processRows, hrow]

/-- C4 witness: the concrete parsed row of `exOKText` has 5 courses and the
credit-hour-weighted mean as its semester GPA. -/
theorem parse_semesterGPA_weighted_mean_witness :
    exOKResult.courses.length = 5 ∧
    exOKResult.semesterGPA = (exOKResult.courses.map (·.qualityPoints)).sum /
      (((exOKResult.courses.map (·.creditHours)).sum : ℕ) : ℚ) :=
  ⟨(parse_semesterGPA_weighted_mean exOKText 1 1 [exOKResult] parse_exOK
      exOKResult (List.mem_singleton.mpr rfl)).1,
   (parse_semesterGPA_weighted_mean exOKText 1 1 [exOKResult] parse_exOK
      exOKResult (List.mem_singleton.mpr rfl)).2.2⟩

/-- C8 counterexample: the first course of the parsed `exOKText` row has
code `CO101`, whose 4th character is the numeric digit `0`; the claim would
give it 0 credit hours, but `parseInt('0') || 2` is falsy-defaulted and the
code gives 2. -/
theorem creditHours_digit0_ne_claimed :
    parseResultText exOKText 1 1 = .ok [exOKResult] ∧
    (exOKResult.courses.getD 0 default).code.get? 3 = some '0' ∧
    '0'.isDigit = true ∧
    (exOKResult.courses.getD 0 default).creditHours ≠
      creditHoursClaimed (exOKResult.courses.getD 0 default).code :=
  ⟨parse_exOK, rfl, rfl, by decide⟩

/-- C8 amended: in every successful parse, the course at position `k` of an
emitted row has the header token at column `k + 2` as its code (or the
synthesized fallback when the header list is too short), and its credit
hours equal the 4th character's digit value for digits 1-9, with the digit
0, non-digits and missing characters falling back to the default 2. -/
theorem parse_course_codes_creditHours (text : List Char) (s y : ℤ)
    (rs : List SemesterResult) (hp : parseResultText text s y = .ok rs) :
    ∀ r ∈ rs, ∀ k cc, r.courses.get? k = some cc →
      cc.code = ((colsOf ((cleanLines text).getD 0 [])).get? (k + 2)).getD
        (fallbackCode y s (k + 2)) ∧
      cc.creditHours = creditHoursAmended cc.code := by
  intro r hr k cc hk
  obtain ⟨l, hl, hpr⟩ := processRows_ok_spec (parse_ok_elim hp) r hr
  obtain ⟨-, -, -, -, hbc, -⟩ := processRow_ok_spec hpr
  obtain ⟨hlen, hidx⟩ := buildCourses_ok_spec hbc
  have hk5 : k < 5 := by
    obtain ⟨hkl, -⟩ := List.get?_eq_some.mp hk
    rw [hlen] at hkl
    simpa [courseIdxs] using hkl
  obtain ⟨hcode, -, hch, -⟩ := hidx k (k + 2) cc (courseIdxs_get k hk5) hk
  exact ⟨hcode, by rw [hch, creditHoursOf_eq_amended]⟩

/-- C8 amended, witness: the first parsed course of `exOKText` satisfies
the amended code/credit-hours rule. -/
theorem parse_course_codes_creditHours_witness :
    (exOKResult.courses.getD 0 default).creditHours =
      creditHoursAmended (exOKResult.courses.getD 0 default).code :=
  (parse_course_codes_creditHours exOKText 1 1 [exOKResult] parse_exOK
    exOKResult (List.mem_singleton.mpr rfl) 0
    (exOKResult.courses.getD 0 default) rfl).2

/-! Helper lemmas about the aggregator. -/

/-- Closed form of the year loop: the fold accumulates the rounded map
entries, the sum of the unrounded means, and the year count. -/
theorem aggFold_loop (l : List (ℤ × ℚ)) (ys : List ℤ)
    (a : List (ℤ × ℚ) × ℚ × ℕ) :
    ys.foldl (fun acc y => (acc.1 ++ [(y, round2 (yearMean l y))],
        acc.2.1 + yearMean l y, acc.2.2 + 1)) a =
      (a.1 ++ ys.map (fun y => (y, round2 (yearMean l y))),
       a.2.1 + (ys.map (yearMean l)).sum, a.2.2 + ys.length) := by
  induction ys generalizing a with
  | nil => simp
  | cons y ys ih =>
    rw [List.foldl_cons, ih]
    simp only [List.map_cons, List.sum_cons, List.length_cons,
      List.append_assoc, List.singleton_append]
    refine congrArg₂ Prod.mk rfl (congrArg₂ Prod.mk ?_ ?_)
    · ring
    · omega

/-- The stored year-GPA map lists each distinct year with its rounded mean. -/
theorem yearGPAsOf_eq (l : List (ℤ × ℚ)) :
    yearGPAsOf l = (studentYears l).map (fun y => (y, round2 (yearMean l y))) := by
  unfold yearGPAsOf aggFold
  rw [aggFold_loop]
  simp

/-- The final GPA is the rounded mean of the unrounded per-year means. -/
theorem finalGPAOf_eq (l : List (ℤ × ℚ)) :
    finalGPAOf l = round2 (((studentYears l).map (yearMean l)).sum /
      ((studentYears l).length : ℚ)) := by
  unfold finalGPAOf aggFold
  rw [aggFold_loop]
  simp

/-! Permutation invariance of the aggregator. -/

/-- Year groups are permutation invariant. -/
theorem yearGroup_perm {a b : List (ℤ × ℚ)} (h : a.Perm b) (y : ℤ) :
    (yearGroup a y).Perm (yearGroup b y) :=
  (h.filter _).map _

/-- Year means are permutation invariant. -/
theorem yearMean_perm {a b : List (ℤ × ℚ)} (h : a.Perm b) (y : ℤ) :
    yearMean a y = yearMean b y := by
  unfold yearMean
  rw [(yearGroup_perm h y).sum_eq, (yearGroup_perm h y).length_eq]

/-- The distinct-year lists of permuted records are permuted. -/
theorem studentYears_perm {a b : List (ℤ × ℚ)} (h : a.Perm b) :
    (studentYears a).Perm (studentYears b) :=
  (h.map _).dedup

/-- The final GPA is permutation invariant. -/
theorem finalGPAOf_perm {a b : List (ℤ × ℚ)} (h : a.Perm b) :
    finalGPAOf a = finalGPAOf b := by
  rw [finalGPAOf_eq, finalGPAOf_eq]
  have hm : (studentYears a).map (yearMean a) =
      (studentYears a).map (yearMean b) :=
    List.map_congr_left (fun y _ => yearMean_perm h y)
  rw [hm, ((studentYears_perm h).map (yearMean b)).sum_eq,
    (studentYears_perm h).length_eq]

/-- Finding an element equal to `y` yields `y` itself when present. -/
theorem find?_beq_eq (ys : List ℤ) (y : ℤ) :
    ys.find? (fun x => x == y) = if y ∈ ys then some y else none := by
  induction ys with
  | nil => rfl
  | cons a ys ih =>
    by_cases ha : a = y
    · subst ha
      simp [List.find?]
    · rw [List.find?]
      simp only [List.mem_cons]
      have hb : (a == y) = false := by simpa using ha
      rw [hb, ih]
      by_cases hy : y ∈ ys
      · simp [hy]
      · have hya : ¬ (y = a) := fun hh => ha hh.symm
        simp [hy, hya]

/-- A search in a key-value map built from a key list. -/
theorem find?_pair_map (ys : List ℤ) (f : ℤ → ℚ) (y : ℤ) :
    (ys.map (fun x => (x, f x))).find? (fun p => p.1 == y) =
      (ys.find? (fun x => x == y)).map (fun x => (x, f x)) := by
  induction ys with
  | nil => rfl
  | cons a ys ih =>
    rw [List.map_cons, List.find?, List.find?]
    by_cases ha : a = y
    · subst ha
      simp
    · have hb : (a == y) = false := by simpa using ha
      simp only [hb]
      exact ih

/-- Lookup in the stored year-GPA map, in closed form. -/
theorem lookupYear_yearGPAsOf (l : List (ℤ × ℚ)) (y : ℤ) :
    lookupYear (yearGPAsOf l) y =
      if y ∈ studentYears l then some (round2 (yearMean l y)) else none := by
  rw [yearGPAsOf_eq]
  unfold lookupYear
  rw [find?_pair_map, find?_beq_eq]
  by_cases hy : y ∈ studentYears l
  · simp [hy]
  · simp [hy]

/-- Records surviving a field-preserving rewrite keep their pair list. -/
theorem pairsOf_map (f : StoredResult → StoredResult)
    (hf : ∀ r, (f r).indexNo = r.indexNo ∧ (f r).year = r.year ∧
      (f r).semesterGPA = r.semesterGPA)
    (rs : List StoredResult) (s : String) :
    pairsOf (rs.map f) s = pairsOf rs s := by
  induction rs with
  | nil => rfl
  | cons r rest ih =>
    obtain ⟨h1, h2, h3⟩ := hf r
    unfold pairsOf at ih ⊢
    rw [List.map_cons, List.filter_cons, List.filter_cons, h1]
    by_cases hs : (r.indexNo == s) = true
    · rw [hs]
      simp only [if_true, List.map_cons, h2, h3]
      rw [ih]
    · simp only [hs, if_false]
      exact ih

/-! Main theorems for the aggregator claims. -/

/-- C5: the stored classification is the first-match-wins evaluation of the
ordered thresholds 3.7 / 3.3 / 3.0 on the rounded final GPA, with 3.7
inclusive: exactly 3.7 classifies as First Class and 3.69 as Second Upper
Class. -/
theorem classification_thresholds :
    (∀ l : List (ℤ × ℚ), finalClassOf l = classifySpec (finalGPAOf l)) ∧
    (∀ g : ℚ, classifySpec g =
      if 37/10 ≤ g then "First Class"
      else if 33/10 ≤ g then "Second Upper Class"
      else if 3 ≤ g then "Second Lower Class"
      else "Just Pass") ∧
    classifySpec (37/10) = "First Class" ∧
    classifySpec (369/100) = "Second Upper Class" := by
  have hspec : ∀ g : ℚ, classifySpec g =
      if 37/10 ≤ g then "First Class"
      else if 33/10 ≤ g then "Second Upper Class"
      else if 3 ≤ g then "Second Lower Class"
      else "Just Pass" := by
    intro g
    unfold classifySpec classThresholds
    by_cases h1 : (37/10 : ℚ) ≤ g
    · simp [List.find?, h1]
    · by_cases h2 : (33/10 : ℚ) ≤ g
      · simp [List.find?, h1, h2]
      · by_cases h3 : (3 : ℚ) ≤ g
        · simp [List.find?, h1, h2, h3]
        · simp [List.find?, h1, h2, h3]
  refine ⟨?_, hspec, ?_, ?_⟩
  · intro l
    rw [hspec]
    rfl
  · rw [hspec]
    norm_num
  · rw [hspec]
    norm_num

/-- C9: recalculating all aggregates twice in a row, with no intervening
submissions, leaves the store exactly as after the first run — the second
run reads only the fields (`indexNo`, `year`, `semesterGPA`) that the first
run does not modify. -/
theorem recalcAll_idem (rs : List StoredResult) :
    recalcAll (recalcAll rs) = recalcAll rs := by
  have hp : ∀ s, pairsOf (recalcAll rs) s = pairsOf rs s := fun s =>
    pairsOf_map (fun r =>
      { r with
        yearGPA := some (yearGPAsOf (pairsOf rs r.indexNo))
        finalGPA := some (finalGPAOf (pairsOf rs r.indexNo))
        finalClass := some (finalClassOf (pairsOf rs r.indexNo)) })
      (fun r => ⟨rfl, rfl, rfl⟩) rs s
  conv_lhs => rw [recalcAll]
  simp only [hp]
  conv_lhs => rw [recalcAll]
  rw [List.map_map]
  exact List.map_congr_left (fun r _ => rfl)

/-- C10: the aggregate a student receives — the year-GPA map, the final GPA
and the classification — depends only on the multiset of
`(year, semesterGPA)` pairs of that student's records: permuting those
pairs, changing any other field, or changing other students' records does
not alter the result. -/
theorem aggregate_depends_only_on_pairs (a b : List StoredResult) (s : String)
    (h : (pairsOf a s).Perm (pairsOf b s)) :
    (∀ y, lookupYear (yearGPAsOf (pairsOf a s)) y =
      lookupYear (yearGPAsOf (pairsOf b s)) y) ∧
    finalGPAOf (pairsOf a s) = finalGPAOf (pairsOf b s) ∧
    finalClassOf (pairsOf a s) = finalClassOf (pairsOf b s) := by
  refine ⟨?_, finalGPAOf_perm h, ?_⟩
  · intro y
    rw [lookupYear_yearGPAsOf, lookupYear_yearGPAsOf, yearMean_perm h,
      if_congr (studentYears_perm h).mem_iff rfl rfl]
  · unfold finalClassOf
    rw [finalGPAOf_perm h]

/-- A store with one student whose three years have unrounded means
11/3, 11/3, 8/3 — a case where rounding order matters. -/
def exAggRecords : List StoredResult :=
  [⟨"S1", "JANE", 1, 1, [], 11/3, none, none, none⟩,
   ⟨"S1", "JANE", 2, 2, [], 11/3, none, none, none⟩,
   ⟨"S1", "JANE", 1, 3, [], 8/3, none, none, none⟩]

/-- C3 counterexample: with per-year means 11/3, 11/3 and 8/3 the code
computes `round2(10/3) = 3.33`, while the claimed mean of the
already-rounded values gives `round2((3.67 + 3.67 + 2.67)/3) = 3.34`. -/
theorem finalGPA_ne_claimed :
    finalGPAOf (pairsOf exAggRecords "S1") = 333/100 ∧
    finalGPAClaimed (pairsOf exAggRecords "S1") = 334/100 ∧
    finalGPAOf (pairsOf exAggRecords "S1") ≠
      finalGPAClaimed (pairsOf exAggRecords "S1") := by
  have hp : pairsOf exAggRecords "S1" = [(1, 11/3), (2, 11/3), (3, 8/3)] := rfl
  have hy : studentYears [((1:ℤ), (11/3:ℚ)), (2, 11/3), (3, 8/3)] =
      [1, 2, 3] := rfl
  have h1 : finalGPAOf (pairsOf exAggRecords "S1") = 333/100 := by
    rw [hp, finalGPAOf_eq, hy]
    norm_num +decide [yearMean, yearGroup, List.filter, round2,
      show ((1:ℤ) == 1) = true from rfl, show ((1:ℤ) == 2) = false from rfl,
      show ((1:ℤ) == 3) = false from rfl, show ((2:ℤ) == 1) = false from rfl,
      show ((2:ℤ) == 2) = true from rfl, show ((2:ℤ) == 3) = false from rfl,
      show ((3:ℤ) == 1) = false from rfl, show ((3:ℤ) == 2) = false from rfl,
      show ((3:ℤ) == 3) = true from rfl]
  have h2 : finalGPAClaimed (pairsOf exAggRecords "S1") = 334/100 := by
    rw [hp, finalGPAClaimed, hy]
    norm_num +decide [yearMean, yearGroup, List.filter, round2,
      show ((1:ℤ) == 1) = true from rfl, show ((1:ℤ) == 2) = false from rfl,
      show ((1:ℤ) == 3) = false from rfl, show ((2:ℤ) == 1) = false from rfl,
      show ((2:ℤ) == 2) = true from rfl, show ((2:ℤ) == 3) = false from rfl,
      show ((3:ℤ) == 1) = false from rfl, show ((3:ℤ) == 2) = false from rfl,
      show ((3:ℤ) == 3) = true from rfl]
  refine ⟨h1, h2, ?_⟩
  rw [h1, h2]
  norm_num

/-- C3 amended: for a student with at least one record the code's final GPA
is the 2-decimal rounding of the mean, over the distinct years, of the
**unrounded** per-year means; the rounded per-year values are what is
stored in the year-GPA map, but they do not feed the final average. -/
theorem finalGPA_mean_of_unrounded (rs : List StoredResult) (s : String)
    (_hne : pairsOf rs s ≠ []) :
    finalGPAOf (pairsOf rs s) =
      round2 (((studentYears (pairsOf rs s)).map (yearMean (pairsOf rs s))).sum /
        ((studentYears (pairsOf rs s)).length : ℚ)) ∧
    yearGPAsOf (pairsOf rs s) =
      (studentYears (pairsOf rs s)).map
        (fun y => (y, round2 (yearMean (pairsOf rs s) y))) :=
  ⟨finalGPAOf_eq _, yearGPAsOf_eq _⟩

/-- C3 amended, witness: the three-year example instantiates the amended
statement. -/
theorem finalGPA_mean_of_unrounded_witness :
    finalGPAOf (pairsOf exAggRecords "S1") =
      round2 (((studentYears (pairsOf exAggRecords "S1")).map
        (yearMean (pairsOf exAggRecords "S1"))).sum /
        ((studentYears (pairsOf exAggRecords "S1")).length : ℚ)) :=
  (finalGPA_mean_of_unrounded exAggRecords "S1" (by decide)).1

/-- A store holding records of two students. -/
def exStoreA : List StoredResult :=
  [⟨"S1", "JANE", 1, 1, [], 3, none, none, none⟩,
   ⟨"S2", "BOB", 2, 1, [], 2, none, none, none⟩,
   ⟨"S1", "JANE", 2, 2, [], 7/2, none, none, none⟩]

/-- A store agreeing with `exStoreA` on the `(year, semesterGPA)` pairs of
student `S1` (up to order) while every other field differs. -/
def exStoreB : List StoredResult :=
  [⟨"S1", "J DOE", 2, 2, [⟨"X".data, "A".data, 1, 37/10⟩], 7/2, none, none, none⟩,
   ⟨"S1", "JANE", 1, 1, [], 3, none, none, none⟩]

/-- C10 witness: the two stores produce identical aggregates for `S1`. -/
theorem aggregate_depends_only_on_pairs_witness :
    lookupYear (yearGPAsOf (pairsOf exStoreA "S1")) 1 =
      lookupYear (yearGPAsOf (pairsOf exStoreB "S1")) 1 ∧
    finalGPAOf (pairsOf exStoreA "S1") = finalGPAOf (pairsOf exStoreB "S1") ∧
    finalClassOf (pairsOf exStoreA "S1") = finalClassOf (pairsOf exStoreB "S1") := by
  have hperm : (pairsOf exStoreA "S1").Perm (pairsOf exStoreB "S1") := by
    have ha : pairsOf exStoreA "S1" = [(1, 3), (2, 7/2)] := rfl
    have hb : pairsOf exStoreB "S1" = [(2, 7/2), (1, 3)] := rfl
    rw [ha, hb]
    exact List.Perm.swap _ _ _
  exact ⟨(aggregate_depends_only_on_pairs exStoreA exStoreB "S1" hperm).1 1,
    (aggregate_depends_only_on_pairs exStoreA exStoreB "S1" hperm).2.1,
    (aggregate_depends_only_on_pairs exStoreA exStoreB "S1" hperm).2.2⟩

end ResultsCal
